import Mathlib

/-!
Verification of the projectile / target / score logic of the WebXR
first-steps shooter (files `bullets.tsx`, `targets.tsx`, `score.tsx`).

The embedding uses exact rational arithmetic (`ℚ`) in place of JS doubles;
positions and orientations are records of rationals, the stores are lists,
and the `setTimeout` / gsap-`onComplete` callbacks are modelled as timed
events fired once the clock passes their due time.
-/

namespace FirstSteps

/-- A 3-component vector, as `three.js`'s `Vector3` restricted to the
operations the game logic uses. -/
structure Vec3 where
  x : ℚ
  y : ℚ
  z : ℚ
deriving DecidableEq

/-- `Vector3.addVectors a b` (componentwise sum). -/
def Vec3.add (a b : Vec3) : Vec3 :=
  ⟨a.x + b.x, a.y + b.y, a.z + b.z⟩

/-- `Vector3.multiplyScalar s v`. -/
def Vec3.multiplyScalar (v : Vec3) (s : ℚ) : Vec3 :=
  ⟨s * v.x, s * v.y, s * v.z⟩

/-- `Vector3.distanceToSquared a b`: squared Euclidean distance.  The source
compares `a.distanceTo(b) < 1`; over exact arithmetic that comparison is
equivalent to `distanceToSquared < 1`, which keeps the test decidable. -/
def Vec3.distanceToSquared (a b : Vec3) : ℚ :=
  (a.x - b.x) ^ 2 + (a.y - b.y) ^ 2 + (a.z - b.z) ^ 2

/-- A quaternion `(x, y, z, w)` as `three.js`'s `Quaternion`. -/
structure Quat where
  x : ℚ
  y : ℚ
  z : ℚ
  w : ℚ
deriving DecidableEq

/-- `three.js` `Vector3.applyQuaternion`: `t = 2 * cross(q.xyz, v)`;
result `v + q.w * t + cross(q.xyz, t)`. -/
def Vec3.applyQuaternion (v : Vec3) (q : Quat) : Vec3 :=
  let tx := 2 * (q.y * v.z - q.z * v.y)
  let ty := 2 * (q.z * v.x - q.x * v.z)
  let tz := 2 * (q.x * v.y - q.y * v.x)
  ⟨v.x + q.w * tx + q.y * tz - q.z * ty,
   v.y + q.w * ty + q.z * tx - q.x * tz,
   v.z + q.w * tz + q.x * ty - q.y * tx⟩

/-- The identity orientation. -/
def identityQuat : Quat := ⟨0, 0, 0, 1⟩

/-- `const bulletSpeed = 10` (units per second). -/
def bulletSpeed : ℚ := 10

/-- `const forwardVector = new Vector3(0, 0, -1)`. -/
def forwardVector : Vec3 := ⟨0, 0, -1⟩

/-- `const bulletTimeToLive = 2` (seconds). -/
def bulletTimeToLive : ℚ := 2

/-- `BulletData` from `bullets.tsx` (final version): id, origin snapshot,
orientation snapshot and spawn timestamp in milliseconds
(`performance.now()`). -/
structure BulletData where
  id : String
  initPosition : Vec3
  initQuaternion : Quat
  timestamp : ℚ
deriving DecidableEq

/-- The per-frame position update of `Bullet`'s `useFrame` callback:
`position = initPosition + applyQuaternion(quaternion, forward) *
(bulletSpeed * (now - timestamp) / 1000)`, where the mesh quaternion is the
spawn-time `initQuaternion` and `now` is in milliseconds. -/
def bulletPosition (b : BulletData) (now : ℚ) : Vec3 :=
  let directionVector := forwardVector.applyQuaternion b.initQuaternion
  b.initPosition.add
    (directionVector.multiplyScalar (bulletSpeed * (now - b.timestamp) / 1000))

/-- C1: for every spawned projectile and every elapsed time `dt` (seconds) in
`[0, bulletTimeToLive)`, the position computed by the frame callback at clock
time `timestamp + dt·1000` ms equals
`initPosition + forward(initQuaternion) · bulletSpeed · dt`. -/
theorem bulletPosition_linear_motion (b : BulletData) (dt : ℚ)
    (h0 : 0 ≤ dt) (h1 : dt < bulletTimeToLive) :
    bulletPosition b (b.timestamp + dt * 1000) =
      b.initPosition.add
        ((forwardVector.applyQuaternion b.initQuaternion).multiplyScalar
          (bulletSpeed * dt)) := by
  simp only [bulletPosition, Vec3.add, Vec3.multiplyScalar, Vec3.applyQuaternion,
    Vec3.mk.injEq]
  refine ⟨by ring, by ring, by ring⟩

/-- Witness for C1, the spec's scenario: a projectile spawned at the origin
with the identity orientation is at `(0, 0, -5)` after half a second. -/
theorem bulletPosition_linear_motion_witness :
    (0 : ℚ) ≤ 1 / 2 ∧ (1 / 2 : ℚ) < bulletTimeToLive ∧
      bulletPosition ⟨"b0", ⟨0, 0, 0⟩, identityQuat, 0⟩ (0 + (1 / 2) * 1000) =
        ⟨0, 0, -5⟩ := by
  refine ⟨by norm_num, by norm_num [bulletTimeToLive], ?_⟩
  have h := bulletPosition_linear_motion ⟨"b0", ⟨0, 0, 0⟩, identityQuat, 0⟩
    (1 / 2) (by norm_num) (by norm_num [bulletTimeToLive])
  rw [h]
  simp only [Vec3.add, Vec3.multiplyScalar, Vec3.applyQuaternion, identityQuat,
    forwardVector, bulletSpeed]
  norm_num

/-- The `bullets` field of the zustand `BulletStore`. -/
structure BulletStoreState where
  bullets : List BulletData
deriving DecidableEq

/-- `removeBullet` from `bullets.tsx`:
`bullets = state.bullets.filter((bullet) => bullet.id !== bulletId)`. -/
def removeBullet (state : BulletStoreState) (bulletId : String) : BulletStoreState :=
  ⟨state.bullets.filter (fun bullet => bullet.id != bulletId)⟩

lemma mem_removeBullet {state : BulletStoreState} {bulletId : String} {b : BulletData} :
    b ∈ (removeBullet state bulletId).bullets ↔
      b ∈ state.bullets ∧ b.id ≠ bulletId := by
  simp [removeBullet, List.mem_filter]

lemma removeBullet_removeBullet (state : BulletStoreState) (bulletId : String) :
    removeBullet (removeBullet state bulletId) bulletId = removeBullet state bulletId := by
  simp only [removeBullet, List.filter_filter, BulletStoreState.mk.injEq]
  exact List.filter_congr (fun b _ => by cases h : b.id != bulletId <;> simp [h])

/-- C7: `removeBullet` is idempotent: on a store not containing the id it is
the identity, and removing the same id twice equals removing it once. -/
theorem removeBullet_idempotent (state : BulletStoreState) (bulletId : String) :
    ((∀ b ∈ state.bullets, b.id ≠ bulletId) → removeBullet state bulletId = state) ∧
      removeBullet (removeBullet state bulletId) bulletId =
        removeBullet state bulletId := by
  constructor
  · intro h
    simp only [removeBullet]
    cases state with
    | mk bullets =>
      simp only [BulletStoreState.mk.injEq]
      exact List.filter_eq_self.mpr (fun b hb => by simpa using h b hb)
  · exact removeBullet_removeBullet state bulletId

/-- Witness for C7: removing an id absent from a concrete one-bullet store
leaves it unchanged, and the double removal agrees with the single one. -/
theorem removeBullet_idempotent_witness :
    ((∀ b ∈ (⟨[⟨"a", ⟨0, 0, 0⟩, identityQuat, 0⟩]⟩ : BulletStoreState).bullets,
        b.id ≠ "b") →
      removeBullet ⟨[⟨"a", ⟨0, 0, 0⟩, identityQuat, 0⟩]⟩ "b" =
        ⟨[⟨"a", ⟨0, 0, 0⟩, identityQuat, 0⟩]⟩) ∧
      removeBullet (removeBullet ⟨[⟨"a", ⟨0, 0, 0⟩, identityQuat, 0⟩]⟩ "b") "b" =
        removeBullet ⟨[⟨"a", ⟨0, 0, 0⟩, identityQuat, 0⟩]⟩ "b" :=
  removeBullet_idempotent ⟨[⟨"a", ⟨0, 0, 0⟩, identityQuat, 0⟩]⟩ "b"

/-- A pending `setTimeout` scheduled by `addBullet`: at `due` (milliseconds)
it calls `removeBullet` on `bulletId`. -/
structure Timer where
  due : ℚ
  bulletId : String
deriving DecidableEq

/-- Bullet store together with its pending expiry timeouts. -/
structure SchedulerState where
  store : BulletStoreState
  timers : List Timer
deriving DecidableEq

/-- The empty initial store, `bullets: []`, with no pending timeout. -/
def initialScheduler : SchedulerState := ⟨⟨[]⟩, []⟩

/-- `addBullet` from `bullets.tsx` (final version): appends
`{id, initPosition, initQuaternion, timestamp: now}` to `bullets` and
schedules `removeBullet(id)` after `bulletTimeToLive * 1000` ms.  The
`generateUUID()` result is the `id` argument; the JS function returns void
(see `addBulletReturn`). -/
def addBullet (state : SchedulerState) (position : Vec3) (quaternion : Quat)
    (id : String) (now : ℚ) : SchedulerState :=
  let newBullet : BulletData := ⟨id, position, quaternion, now⟩
  ⟨⟨state.store.bullets ++ [newBullet]⟩,
   state.timers ++ [⟨now + bulletTimeToLive * 1000, newBullet.id⟩]⟩

/-- The value `addBullet` returns to its caller: its body is a call to
zustand's `set`, and its declared type is
`(position: Vector3, quaternion: Quaternion) => void`, so every call
returns `undefined` — no id is handed back. -/
def addBulletReturn (state : SchedulerState) (position : Vec3) (quaternion : Quat)
    (id : String) (now : ℚ) : Unit := ()

/-- Fire every pending timeout whose due time has passed, in scheduling
order: each runs `removeBullet` on its bullet id; the remaining timers stay
pending. -/
def runDueTimers (state : SchedulerState) (now : ℚ) : SchedulerState :=
  ⟨(state.timers.filter (fun tm => decide (tm.due ≤ now))).foldl
      (fun st tm => removeBullet st tm.bulletId) state.store,
   state.timers.filter (fun tm => !decide (tm.due ≤ now))⟩

lemma mem_foldl_removeBullet (tms : List Timer) (st : BulletStoreState)
    (b : BulletData) :
    b ∈ (tms.foldl (fun s tm => removeBullet s tm.bulletId) st).bullets ↔
      b ∈ st.bullets ∧ ∀ tm ∈ tms, b.id ≠ tm.bulletId := by
  induction tms generalizing st with
  | nil => simp
  | cons tm tms ih =>
    simp only [List.foldl_cons, ih, mem_removeBullet, List.mem_cons]
    constructor
    · rintro ⟨⟨hb, hne⟩, hall⟩
      exact ⟨hb, fun tm' htm' => htm'.elim (fun h => h ▸ hne) (hall tm')⟩
    · rintro ⟨hb, hall⟩
      exact ⟨⟨hb, hall tm (Or.inl rfl)⟩, fun tm' htm' => hall tm' (Or.inr htm')⟩

/-- C3: a projectile spawned at `t0` whose id no pending timeout targets is,
absent an intervening hit, in the live set at `t0 + dt·1000` ms exactly when
`dt < bulletTimeToLive`: the expiry timeout scheduled at spawn fires at
`t0 + bulletTimeToLive·1000` and removes it. -/
theorem bullet_live_iff_before_ttl (state : SchedulerState) (position : Vec3)
    (quaternion : Quat) (id : String) (t0 dt : ℚ)
    (hfresh : ∀ tm ∈ state.timers, tm.bulletId ≠ id) (hdt : 0 ≤ dt) :
    (∃ b ∈ (runDueTimers (addBullet state position quaternion id t0)
        (t0 + dt * 1000)).store.bullets, b.id = id) ↔
      dt < bulletTimeToLive := by
  simp only [runDueTimers, addBullet, List.filter_append, mem_foldl_removeBullet]
  constructor
  · rintro ⟨b, ⟨hb, hall⟩, hid⟩
    by_contra hge
    push_neg at hge
    have hdue : (⟨t0 + bulletTimeToLive * 1000, id⟩ : Timer) ∈
        (state.timers.filter (fun tm => decide (tm.due ≤ t0 + dt * 1000))) ++
          ([⟨t0 + bulletTimeToLive * 1000, id⟩] : List Timer).filter
            (fun tm => decide (tm.due ≤ t0 + dt * 1000)) := by
      refine List.mem_append_right _ (List.mem_filter.mpr ?_)
      refine ⟨List.mem_singleton.mpr rfl, ?_⟩
      simp only [decide_eq_true_eq]
      linarith
    exact hall _ hdue hid
  · intro hlt
    refine ⟨⟨id, position, quaternion, t0⟩, ⟨List.mem_append_right _ ?_, ?_⟩, rfl⟩
    · exact List.mem_singleton.mpr rfl
    · intro tm htm
      rcases List.mem_append.mp htm with hold | hnew
      · exact fun h => hfresh tm (List.mem_of_mem_filter hold) h.symm
      · exfalso
        rcases List.mem_filter.mp hnew with ⟨hmem, hcond⟩
        have heq := List.mem_singleton.mp hmem
        subst heq
        simp only [decide_eq_true_eq] at hcond
        linarith

/-- Witness for C3: from the empty store, a projectile spawned at `t0 = 0` is
still live at `dt = 1` s (and the theorem's hypotheses hold there). -/
theorem bullet_live_iff_before_ttl_witness :
    (∀ tm ∈ initialScheduler.timers, tm.bulletId ≠ "b0") ∧ (0 : ℚ) ≤ 1 ∧
      ((∃ b ∈ (runDueTimers (addBullet initialScheduler ⟨0, 0, 0⟩ identityQuat
          "b0" 0) (0 + 1 * 1000)).store.bullets, b.id = "b0") ↔
        (1 : ℚ) < bulletTimeToLive) :=
  ⟨fun tm htm => absurd htm (List.not_mem_nil tm), by norm_num,
    bullet_live_iff_before_ttl initialScheduler ⟨0, 0, 0⟩ identityQuat "b0" 0 1
      (fun tm htm => absurd htm (List.not_mem_nil tm)) (by norm_num)⟩

/-- A target object as the game logic sees it: the `visible` flag and the
`position` of the `Object3D` kept in the `targets` set (`targets.tsx`). -/
structure Target where
  visible : Bool
  position : Vec3
deriving DecidableEq

/-- The collision scan's candidate filter from `score.tsx`:
`[...targets].filter((target) => target.visible)`. -/
def visibleTargets (targets : List Target) : List Target :=
  targets.filter (fun target => target.visible)

/-- Whether the scan's body registers a hit for one target:
`target.position.distanceTo(bulletObject.position) < 1`; over exact
arithmetic `distanceTo < 1` is equivalent to `distanceToSquared < 1`. -/
def inHitRadius (bulletPos : Vec3) (target : Target) : Bool :=
  decide (target.position.distanceToSquared bulletPos < 1)

/-- The targets a projectile at `bulletPos` hits in one tick's scan, in
target-set iteration order: the visible ones whose distance is below 1. -/
def bulletHits (bulletPos : Vec3) (targets : List Target) : List Target :=
  (visibleTargets targets).filter (inHitRadius bulletPos)

/-- C2: a projectile-target pair registers a hit in a tick's scan iff the
target is scanned, visible, and strictly within the hit radius (squared
distance < 1); in particular a hidden target is never hit. -/
theorem hit_iff_visible_and_close (bulletPos : Vec3) (targets : List Target)
    (target : Target) :
    target ∈ bulletHits bulletPos targets ↔
      target ∈ targets ∧ target.visible = true ∧
        target.position.distanceToSquared bulletPos < 1 := by
  simp only [bulletHits, visibleTargets, inHitRadius, List.mem_filter,
    decide_eq_true_eq]
  tauto

/-- Witness for C2, the spec's scenario shape: a visible target at
`(2, 1, -6)` is hit by a projectile at `(2, 1, -6.5)` and a hidden target at
the same spot is not. -/
theorem hit_iff_visible_and_close_witness :
    ((⟨true, ⟨2, 1, -6⟩⟩ : Target) ∈
        bulletHits ⟨2, 1, -13/2⟩ [⟨true, ⟨2, 1, -6⟩⟩, ⟨false, ⟨2, 1, -6⟩⟩] ↔
      (⟨true, ⟨2, 1, -6⟩⟩ : Target) ∈
          ([⟨true, ⟨2, 1, -6⟩⟩, ⟨false, ⟨2, 1, -6⟩⟩] : List Target) ∧
        (true = true) ∧ Vec3.distanceToSquared ⟨2, 1, -6⟩ ⟨2, 1, -13/2⟩ < 1) :=
  hit_iff_visible_and_close ⟨2, 1, -13/2⟩
    [⟨true, ⟨2, 1, -6⟩⟩, ⟨false, ⟨2, 1, -6⟩⟩] ⟨true, ⟨2, 1, -6⟩⟩

/-- The zustand `ScoreStore`'s initial state: `score: 0`. -/
def initialScore : ℤ := 0

/-- `addScore` from `score.tsx`: `score: state.score + 10`. -/
def addScore (score : ℤ) : ℤ :=
  score + 10

/-- C6: the score starts at 0 and `n` calls of `addScore` leave it at
`n * 10`. -/
theorem score_after_n_hits :
    initialScore = 0 ∧ ∀ n : ℕ, addScore^[n] initialScore = n * 10 := by
  refine ⟨rfl, fun n => ?_⟩
  induction n with
  | zero => simp [initialScore]
  | succ n ih =>
    rw [Function.iterate_succ_apply', ih, addScore]
    push_cast
    ring

/-- The pieces of world state the scan's hit branch mutates: the bullet
store, the score, and (standing for the gsap shrink / hide / respawn pipeline
it starts) the list of targets for which that branch ran, in order. -/
structure ScanState where
  bullets : BulletStoreState
  score : ℤ
  hits : List Target
deriving DecidableEq

/-- The body of the scan's `forEach` for one visible target: when the
distance is below 1 it calls `removeBullet(bulletData.id)`, starts the
shrink/hide/respawn pipeline on the target, and calls `addScore()`. -/
def scanStep (bulletId : String) (bulletPos : Vec3) (st : ScanState)
    (target : Target) : ScanState :=
  if inHitRadius bulletPos target then
    ⟨removeBullet st.bullets bulletId, addScore st.score, st.hits ++ [target]⟩
  else st

/-- One projectile's whole collision scan in a tick:
`[...targets].filter(visible).forEach(...)`. -/
def collisionScan (bulletId : String) (bulletPos : Vec3)
    (targets : List Target) (st : ScanState) : ScanState :=
  (visibleTargets targets).foldl (scanStep bulletId bulletPos) st

lemma foldl_scanStep (bulletId : String) (bulletPos : Vec3) (l : List Target)
    (st : ScanState) :
    l.foldl (scanStep bulletId bulletPos) st =
      ⟨if (l.filter (inHitRadius bulletPos)).isEmpty then st.bullets
          else removeBullet st.bullets bulletId,
        st.score + 10 * (l.filter (inHitRadius bulletPos)).length,
        st.hits ++ l.filter (inHitRadius bulletPos)⟩ := by
  induction l generalizing st with
  | nil => simp
  | cons target l ih =>
    rw [List.foldl_cons, scanStep]
    cases hhit : inHitRadius bulletPos target with
    | true =>
      rw [if_pos rfl, ih]
      simp only [List.filter_cons, hhit, if_pos rfl, List.isEmpty_cons,
        List.length_cons, ScanState.mk.injEq]
      refine ⟨?_, by simp [addScore]; ring, by simp⟩
      cases (l.filter (inHitRadius bulletPos)).isEmpty <;>
        simp [removeBullet_removeBullet]
    | false =>
      rw [if_neg (by simp [hhit]), ih]
      simp [List.filter_cons, hhit]

/-- C10: one tick's scan for a single projectile processes every visible
in-radius target in iteration order: it records each of them (triggering the
hide/respawn pipeline per target), adds 10 to the score per such target
(`10 * k` in total), and calls `removeBullet` once per such target, so the
bullet store ends as after a single removal when at least one hit occurred
and unchanged otherwise. -/
theorem collision_scan_all_matches (bulletId : String) (bulletPos : Vec3)
    (targets : List Target) (st : ScanState) :
    collisionScan bulletId bulletPos targets st =
      ⟨if (bulletHits bulletPos targets).isEmpty then st.bullets
          else removeBullet st.bullets bulletId,
        st.score + 10 * (bulletHits bulletPos targets).length,
        st.hits ++ bulletHits bulletPos targets⟩ :=
  foldl_scanStep bulletId bulletPos (visibleTargets targets) st

/-- `duration: 0.3`, the gsap shrink tween's length in seconds; its
`onComplete` sets `target.visible = false`. -/
def shrinkDuration : ℚ := 3 / 10

/-- The respawn `setTimeout(..., 1000)` delay, in seconds. -/
def respawnDelay : ℚ := 1

/-- The gsap `onComplete` handler's first effect: `target.visible = false`. -/
def hideTarget (target : Target) : Target :=
  ⟨false, target.position⟩

/-- The respawn timeout's body: `target.visible = true;
target.position.x = Math.random() * 10 - 5;
target.position.z = -Math.random() * 5 - 5` (y untouched), where `r1` and
`r2` are the two `Math.random()` draws. -/
def respawnTarget (target : Target) (r1 r2 : ℚ) : Target :=
  ⟨true, ⟨r1 * 10 - 5, target.position.y, -(r2 * 5) - 5⟩⟩

/-- Initial placement of target `targetIdx` from `targets.tsx`:
`position.set(Math.random() * 10 - 5, targetIdx * 2 + 1,
-Math.random() * 5 - 5)` with `r1`, `r2` the two `Math.random()` draws. -/
def initialTargetPosition (targetIdx : ℕ) (r1 r2 : ℚ) : Vec3 :=
  ⟨r1 * 10 - 5, (targetIdx : ℚ) * 2 + 1, -(r2 * 5) - 5⟩

/-- The state of a hit target at clock time `now` (seconds), for a hit
registered at `hitTime`, following the source's scheduling: the gsap shrink
runs for `shrinkDuration`, its `onComplete` then sets `visible = false` and
schedules the respawn body `respawnDelay` later; each scheduled callback has
fired exactly when the clock has passed its due time. -/
def targetAfterHit (target : Target) (hitTime now : ℚ) (r1 r2 : ℚ) : Target :=
  if now < hitTime + shrinkDuration then target
  else if now < hitTime + shrinkDuration + respawnDelay then hideTarget target
  else respawnTarget (hideTarget target) r1 r2

/-- Counterexample to C4: a tick 0.1 s after the hit still sees the target
visible — the gsap shrink is running and `visible = false` happens only in
its `onComplete` 0.3 s after the hit, so the target is not "immediately
invisible" and intervening ticks do see it visible. -/
theorem target_not_immediately_invisible :
    (0 : ℚ) < 1 / 10 ∧ (1 / 10 : ℚ) < shrinkDuration ∧
      (targetAfterHit ⟨true, ⟨2, 1, -6⟩⟩ 0 (1 / 10) 0 0).visible = true := by
  refine ⟨by norm_num, by norm_num [shrinkDuration], ?_⟩
  rw [targetAfterHit, if_pos (by norm_num [shrinkDuration])]

/-- C4 (amended): once a hit is registered in a tick, the projectile is
removed from the live set within that same tick (no bullet with its id
survives the scan); the target however stays visible during the 0.3 s shrink
animation and is invisible only from `hitTime + shrinkDuration` until the
respawn fires `respawnDelay` later. -/
theorem hit_removes_bullet_and_hides_target_after_shrink (bulletId : String)
    (bulletPos : Vec3) (targets : List Target) (st : ScanState)
    (target : Target) (hitTime now r1 r2 : ℚ)
    (hhit : (bulletHits bulletPos targets).isEmpty = false) :
    (∀ b ∈ (collisionScan bulletId bulletPos targets st).bullets.bullets,
        b.id ≠ bulletId) ∧
      (hitTime ≤ now → now < hitTime + shrinkDuration →
        (targetAfterHit target hitTime now r1 r2).visible = target.visible) ∧
      (hitTime + shrinkDuration ≤ now →
        now < hitTime + shrinkDuration + respawnDelay →
        (targetAfterHit target hitTime now r1 r2).visible = false) := by
  refine ⟨?_, ?_, ?_⟩
  · intro b hb
    simp only [collisionScan] at hb
    rw [foldl_scanStep] at hb
    simp only [bulletHits] at hhit
    rw [hhit] at hb
    simp only [if_neg (Bool.false_ne_true)] at hb
    exact (mem_removeBullet.mp hb).2
  · intro _ hlt
    rw [targetAfterHit, if_pos hlt]
  · intro hge hlt
    rw [targetAfterHit, if_neg (by linarith), if_pos hlt, hideTarget]

/-- Witness for C4 (amended): concrete one-bullet, one-target scan with a
registered hit, evaluated 0.5 s after the hit (inside the hidden window). -/
theorem hit_removes_bullet_and_hides_target_after_shrink_witness :
    (bulletHits ⟨2, 1, -13/2⟩ [⟨true, ⟨2, 1, -6⟩⟩]).isEmpty = false ∧
      ((∀ b ∈ (collisionScan "b0" ⟨2, 1, -13/2⟩ [⟨true, ⟨2, 1, -6⟩⟩]
            ⟨⟨[⟨"b0", ⟨0, 0, 0⟩, identityQuat, 0⟩]⟩, 0, []⟩).bullets.bullets,
          b.id ≠ "b0") ∧
        ((0 : ℚ) ≤ 1 / 2 → (1 / 2 : ℚ) < 0 + shrinkDuration →
          (targetAfterHit ⟨true, ⟨2, 1, -6⟩⟩ 0 (1 / 2) 0 0).visible = true) ∧
        ((0 : ℚ) + shrinkDuration ≤ 1 / 2 →
          (1 / 2 : ℚ) < 0 + shrinkDuration + respawnDelay →
          (targetAfterHit ⟨true, ⟨2, 1, -6⟩⟩ 0 (1 / 2) 0 0).visible = false)) := by
  have hhit : (bulletHits ⟨2, 1, -13/2⟩ [⟨true, ⟨2, 1, -6⟩⟩]).isEmpty = false := by
    have hin : inHitRadius ⟨2, 1, -13/2⟩ ⟨true, ⟨2, 1, -6⟩⟩ = true := by
      rw [inHitRadius, decide_eq_true_eq, Vec3.distanceToSquared]
      norm_num
    simp [bulletHits, visibleTargets, hin]
  exact ⟨hhit, hit_removes_bullet_and_hides_target_after_shrink "b0"
    ⟨2, 1, -13/2⟩ [⟨true, ⟨2, 1, -6⟩⟩]
    ⟨⟨[⟨"b0", ⟨0, 0, 0⟩, identityQuat, 0⟩]⟩, 0, []⟩
    ⟨true, ⟨2, 1, -6⟩⟩ 0 (1 / 2) 0 0 hhit⟩

/-- C5: after a hit the target is marked invisible and the respawn is
scheduled a fixed `respawnDelay = 1` time unit later; once it fires the
target is visible again at a randomized position with `x ∈ [-5, 5]` and
`z ∈ [-10, -5]`, computed by the same formulas as the initial placement in
`targets.tsx`. -/
theorem respawn_restores_visibility_within_bounds (target : Target)
    (hitTime now r1 r2 : ℚ) (h1 : 0 ≤ r1) (h2 : r1 < 1) (h3 : 0 ≤ r2)
    (h4 : r2 < 1) (hnow : hitTime + shrinkDuration + respawnDelay ≤ now) :
    respawnDelay = 1 ∧
      (∀ mid : ℚ, hitTime + shrinkDuration ≤ mid →
        mid < hitTime + shrinkDuration + respawnDelay →
        (targetAfterHit target hitTime mid r1 r2).visible = false) ∧
      (targetAfterHit target hitTime now r1 r2).visible = true ∧
      -5 ≤ (targetAfterHit target hitTime now r1 r2).position.x ∧
      (targetAfterHit target hitTime now r1 r2).position.x ≤ 5 ∧
      -10 ≤ (targetAfterHit target hitTime now r1 r2).position.z ∧
      (targetAfterHit target hitTime now r1 r2).position.z ≤ -5 ∧
      (targetAfterHit target hitTime now r1 r2).position.x =
        (initialTargetPosition 0 r1 r2).x ∧
      (targetAfterHit target hitTime now r1 r2).position.z =
        (initialTargetPosition 0 r1 r2).z := by
  have hrd : (0 : ℚ) < respawnDelay := by norm_num [respawnDelay]
  have hmid : ∀ mid : ℚ, hitTime + shrinkDuration ≤ mid →
      mid < hitTime + shrinkDuration + respawnDelay →
      (targetAfterHit target hitTime mid r1 r2).visible = false := by
    intro mid hge hlt
    rw [targetAfterHit, if_neg (by linarith), if_pos hlt, hideTarget]
  rw [targetAfterHit, if_neg (by linarith), if_neg (by linarith)]
  simp only [respawnTarget, hideTarget, initialTargetPosition]
  exact ⟨rfl, hmid, by trivial, by linarith, by linarith, by linarith,
    by linarith, by trivial, by trivial⟩

/-- Witness for C5: concrete hit at time 0 observed at 2 s with random draws
`r1 = r2 = 1/2`; the target is back, at `(0, 1, -15/2)`. -/
theorem respawn_restores_visibility_within_bounds_witness :
    (0 : ℚ) ≤ 1 / 2 ∧ (1 / 2 : ℚ) < 1 ∧
      (0 : ℚ) + shrinkDuration + respawnDelay ≤ 2 ∧
      (targetAfterHit ⟨true, ⟨2, 1, -6⟩⟩ 0 2 (1 / 2) (1 / 2)).visible = true ∧
      (targetAfterHit ⟨true, ⟨2, 1, -6⟩⟩ 0 2 (1 / 2) (1 / 2)).position.x =
        (initialTargetPosition 0 (1 / 2) (1 / 2)).x := by
  have h := respawn_restores_visibility_within_bounds ⟨true, ⟨2, 1, -6⟩⟩ 0 2
    (1 / 2) (1 / 2) (by norm_num) (by norm_num) (by norm_num) (by norm_num)
    (by norm_num [shrinkDuration, respawnDelay])
  exact ⟨by norm_num, by norm_num,
    by norm_num [shrinkDuration, respawnDelay], h.2.2.1, h.2.2.2.2.2.2.2.1⟩

/-- JS `String.prototype.padStart(targetLength, pad)` for a one-character
pad string: copies of `pad` are prepended until the length reaches
`targetLength`; a string already long enough is returned unchanged. -/
def padStart (s : String) (targetLength : ℕ) (pad : Char) : String :=
  (List.replicate (targetLength - s.length) pad).asString ++ s

/-- `formatScoreText` from `score.tsx`:
`const clampedScore = Math.max(0, Math.min(9999, score));
return clampedScore.toString().padStart(4, "0");`. -/
def formatScoreText (score : ℤ) : String :=
  let clampedScore := max 0 (min 9999 score)
  padStart (toString clampedScore) 4 '0'

/-- C8: the displayed score is the raw score clamped to `[0, 9999]` rendered
as a zero-padded decimal string of exactly 4 characters: the display only
depends on the clamp, is `"9999"` for any raw score above 9999, and is
`"0000"` for any negative raw score. -/
theorem formatScoreText_four_digit_clamp (score : ℤ) :
    (formatScoreText score).length = 4 ∧
      formatScoreText score = formatScoreText (max 0 (min 9999 score)) ∧
      (9999 < score → formatScoreText score = "9999") ∧
      (score < 0 → formatScoreText score = "0000") := by
  have hnn : (0 : ℤ) ≤ max 0 (min 9999 score) := le_max_left 0 _
  have hle : max 0 (min 9999 score) ≤ 9999 := max_le (by norm_num) (min_le_left _ _)
  refine ⟨?_, ?_, ?_, ?_⟩
  · have hn : ((max 0 (min 9999 score)).toNat : ℤ) = max 0 (min 9999 score) :=
      Int.toNat_of_nonneg hnn
    have hrepr : toString (max 0 (min 9999 score)) =
        Nat.repr (max 0 (min 9999 score)).toNat := by
      rw [← hn]
      rfl
    have hsmall : (max 0 (min 9999 score)).toNat < 10 ^ 4 := by
      have h4 : (10 : ℕ) ^ 4 = 10000 := by norm_num
      omega
    have hlen4 : (toString (max 0 (min 9999 score))).length ≤ 4 := by
      rw [hrepr]
      exact Nat.repr_length _ 4 (by norm_num) hsmall
    simp only [formatScoreText, padStart, String.length_append,
      List.length_asString, List.length_replicate]
    omega
  · have hclamp : max 0 (min 9999 (max 0 (min 9999 score))) =
        max 0 (min 9999 score) := by omega
    simp only [formatScoreText, hclamp]
  · intro h
    have hc : max 0 (min 9999 score) = 9999 := by omega
    simp only [formatScoreText, hc]
    rfl
  · intro h
    have hc : max 0 (min 9999 score) = 0 := by omega
    simp only [formatScoreText, hc]
    rfl

/-- Witness for C8: a raw score of 123456 displays as the 4-character
`"9999"`, and a negative raw score displays as `"0000"`. -/
theorem formatScoreText_four_digit_clamp_witness :
    (formatScoreText 123456).length = 4 ∧ formatScoreText 123456 = "9999" ∧
      formatScoreText (-7) = "0000" :=
  ⟨(formatScoreText_four_digit_clamp 123456).1,
   (formatScoreText_four_digit_clamp 123456).2.2.1 (by norm_num),
   (formatScoreText_four_digit_clamp (-7)).2.2.2 (by norm_num)⟩

lemma removeBullet_sublist (state : BulletStoreState) (bulletId : String) :
    (removeBullet state bulletId).bullets.Sublist state.bullets :=
  List.filter_sublist _

lemma foldl_removeBullet_sublist (tms : List Timer) (st : BulletStoreState) :
    (tms.foldl (fun s tm => removeBullet s tm.bulletId) st).bullets.Sublist
      st.bullets := by
  induction tms generalizing st with
  | nil => exact List.Sublist.refl _
  | cons tm tms ih =>
    exact (ih (removeBullet st tm.bulletId)).trans (removeBullet_sublist st tm.bulletId)

/-- States reachable from the empty bullet store, tracking the list `used` of
UUIDs handed out so far: each `addBullet` consumes a fresh UUID (the
hypothesis that `generateUUID()` never repeats a value), a hit calls
`removeBullet` directly, and pending expiry timeouts fire via
`runDueTimers`. -/
inductive Reachable : List String → SchedulerState → Prop
  | init : Reachable [] initialScheduler
  | spawn {used : List String} {state : SchedulerState} (position : Vec3)
      (quaternion : Quat) (id : String) (now : ℚ) :
      Reachable used state → id ∉ used →
      Reachable (id :: used) (addBullet state position quaternion id now)
  | hit {used : List String} {state : SchedulerState} (id : String) :
      Reachable used state →
      Reachable used ⟨removeBullet state.store id, state.timers⟩
  | timeouts {used : List String} {state : SchedulerState} (now : ℚ) :
      Reachable used state → Reachable used (runDueTimers state now)

lemma reachable_ids_invariant {used : List String} {state : SchedulerState}
    (h : Reachable used state) :
    (state.store.bullets.map BulletData.id).Nodup ∧
      ∀ b ∈ state.store.bullets, b.id ∈ used := by
  induction h with
  | init => simp [initialScheduler]
  | spawn position quaternion id now hr hfresh ih =>
    obtain ⟨hnodup, hmem⟩ := ih
    constructor
    · simp only [addBullet, List.map_append, List.map_cons, List.map_nil]
      rw [List.nodup_append]
      refine ⟨hnodup, List.nodup_singleton _, ?_⟩
      intro a ha hb
      rcases List.mem_map.mp ha with ⟨b, hbmem, rfl⟩
      rcases List.mem_singleton.mp hb with rfl
      exact hfresh (hmem b hbmem)
    · intro b hb
      rcases List.mem_append.mp hb with hold | hnew
      · exact List.mem_cons_of_mem _ (hmem b hold)
      · rcases List.mem_singleton.mp hnew with rfl
        exact List.mem_cons_self _ _
  | hit id hr ih =>
    obtain ⟨hnodup, hmem⟩ := ih
    refine ⟨List.Nodup.sublist ((removeBullet_sublist _ id).map BulletData.id)
      hnodup, ?_⟩
    intro b hb
    exact hmem b (mem_removeBullet.mp hb).1
  | @timeouts used' state' now hr ih =>
    obtain ⟨hnodup, hmem⟩ := ih
    have hsub := foldl_removeBullet_sublist
      (List.filter (fun tm => decide (tm.due ≤ now)) state'.timers) state'.store
    refine ⟨List.Nodup.sublist (hsub.map BulletData.id) hnodup, ?_⟩
    intro b hb
    exact hmem b (hsub.mem hb)

/-- C9 (amended): every spawn consumes a fresh UUID, and in every reachable
state the ids of the currently-live projectiles are pairwise distinct (under
the hypothesis that the UUID generator never repeats); `addBullet` itself,
however, returns nothing to its caller. -/
theorem live_bullet_ids_pairwise_distinct {used : List String}
    {state : SchedulerState} (h : Reachable used state) :
    (state.store.bullets.map BulletData.id).Nodup :=
  (reachable_ids_invariant h).1

/-- Witness for C9: the state reached by spawning two bullets with the fresh
ids "b0" and "b1" is reachable and its live ids are pairwise distinct. -/
theorem live_bullet_ids_pairwise_distinct_witness :
    Reachable ["b1", "b0"]
        (addBullet (addBullet initialScheduler ⟨0, 0, 0⟩ identityQuat "b0" 0)
          ⟨1, 1, 1⟩ identityQuat "b1" 100) ∧
      ((addBullet (addBullet initialScheduler ⟨0, 0, 0⟩ identityQuat "b0" 0)
          ⟨1, 1, 1⟩ identityQuat "b1" 100).store.bullets.map
            BulletData.id).Nodup := by
  have hr1 : Reachable ["b0"]
      (addBullet initialScheduler ⟨0, 0, 0⟩ identityQuat "b0" 0) :=
    Reachable.spawn _ _ _ _ Reachable.init (List.not_mem_nil _)
  have hr2 : Reachable ["b1", "b0"]
      (addBullet (addBullet initialScheduler ⟨0, 0, 0⟩ identityQuat "b0" 0)
        ⟨1, 1, 1⟩ identityQuat "b1" 100) :=
    Reachable.spawn _ _ _ _ hr1 (by simp)
  exact ⟨hr2, live_bullet_ids_pairwise_distinct hr2⟩

/-- Counterexample to C9's "returns that unique id": `addBullet`'s declared
type is `(position: Vector3, quaternion: Quaternion) => void`, so its return
value carries no information — no reading of it can recover the freshly
allocated id, as two concrete calls allocating the distinct ids "id-a" and
"id-b" return the identical void value. -/
theorem addBullet_return_carries_no_id :
    ¬ ∃ g : Unit → String,
        g (addBulletReturn initialScheduler ⟨0, 0, 0⟩ identityQuat "id-a" 0) =
            "id-a" ∧
          g (addBulletReturn initialScheduler ⟨0, 0, 0⟩ identityQuat "id-b" 0) =
            "id-b" := by
  rintro ⟨g, h1, h2⟩
  simp only [addBulletReturn] at h1 h2
  exact absurd (h1.symm.trans h2) (by simp)

end FirstSteps
